import Mathlib

/-!
Shallow embedding of the detection-report aggregation engine of this
repository (`inference.py` and the incremental-processing logic of
`streamlit_app.py`).

Conventions of the embedding:
* Python floats are modelled as exact rationals `ℚ`; `round(x, 4)` is
  modelled by round-half-to-even on the scaled rational, which is the
  semantics of the Python builtin on the mathematical value.
* Python strings are modelled as `String`, with the string operations
  used by the source (`Path.stem`, `Path.suffix`, `Path.name`,
  `str.split("_")`, `str.startswith`, `"_".join`) re-implemented
  structurally over the character list so that they compute by kernel
  reduction.
* Python dicts are modelled as association lists with first-match lookup;
  dict assignment replaces an existing binding in place and appends a new
  one at the end, matching insertion-ordered dict semantics.
* File-system state is modelled explicitly: the detections file is a
  value of `CollectionFile` (absent / unreadable / malformed / parsed),
  and `save_detections_to_json` returns the new file state together with
  the optional feature, mirroring the write that the source performs.
  Raised-and-caught exceptions of the source are represented by the
  corresponding constructors; an uncaught exception of `load_metadata`
  on an unparsable source is an `Except.error`.
-/

set_option linter.unusedVariables false

set_option allowUnsafeReducibility true

attribute [semireducible] Rat.mul Rat.inv Rat.add Rat.sub Rat.div

namespace RoadDetect

/-! ## Python-style string primitives -/

/-- Split a character list at every occurrence of the separator, keeping
empty chunks, exactly like Python `str.split(sep)` for a one-character
separator: `splitOnChar c [] = [[]]`. -/
def splitOnChar (c : Char) : List Char → List (List Char)
  | [] => [[]]
  | x :: xs =>
    if x = c then [] :: splitOnChar c xs
    else
      match splitOnChar c xs with
      | [] => [[x]]
      | g :: gs => (x :: g) :: gs

/-- Boolean prefix test on character lists (`str.startswith`). -/
def isPref : List Char → List Char → Bool
  | [], _ => true
  | _ :: _, [] => false
  | x :: xs, y :: ys => x = y && isPref xs ys

/-- Join chunks with a separator character (`sep.join(parts)`). -/
def joinWith (c : Char) : List (List Char) → List Char
  | [] => []
  | [g] => g
  | g :: gs => g ++ c :: joinWith c gs

/-- Index of the last occurrence of a character, if any (`str.rfind`). -/
def rfindIdx : List Char → Char → Option Nat
  | [], _ => none
  | x :: xs, c =>
    match rfindIdx xs c with
    | some i => some (i + 1)
    | none => if x = c then some 0 else none

/-- The final path component (`pathlib.Path(...).name`): the substring
after the last slash. -/
def lastComponent (s : List Char) : List Char :=
  match splitOnChar '/' s with
  | [] => s
  | g :: gs => (g :: gs).getLast (by simp)

/-- `pathlib.Path(name).stem`: the name up to its last dot, provided that
dot is neither the first nor the last character; otherwise the whole
name. -/
def pyStem (name : List Char) : List Char :=
  match rfindIdx name '.' with
  | none => name
  | some i => if 0 < i ∧ i < name.length - 1 then name.take i else name

/-- `pathlib.Path(name).suffix`: the part of the name from its last dot
onward, under the same conditions as `pyStem`; otherwise empty. -/
def pySuffix (name : List Char) : List Char :=
  match rfindIdx name '.' with
  | none => []
  | some i => if 0 < i ∧ i < name.length - 1 then name.drop i else []

/-- The chunk of the stem before the first separator
(`stem.split("_")[0]`, Convention B of the spec). -/
def firstPart (st : List Char) : List Char :=
  match splitOnChar '_' st with
  | [] => []
  | g :: _ => g

/-- `Path(p).name` as a `String`-level operation. -/
def pathName (p : String) : String :=
  String.mk (lastComponent p.data)

/-! ## Image Identifier Resolver (`extract_image_id`, inference.py) -/

/-- `extract_image_id` from `inference.py`: if the stem starts with the
crowd-upload marker and splits into at least 4 underscore-separated
parts, the id is the joined tail; otherwise the chunk of the stem before
the first underscore. -/
def extract_image_id (filename : String) : String :=
  let stem := pyStem (lastComponent filename.data)
  let parts := splitOnChar '_' stem
  if isPref ("pothole_").data stem = true ∧ 4 ≤ parts.length then
    String.mk (joinWith '_' (parts.drop 1))
  else
    String.mk (firstPart stem)

/-! ## Rounding (Python `round(x, 4)` on the mathematical value) -/

/-- Floor of a rational, computed by floor division of numerator by
denominator so that it reduces in the kernel. -/
def pyFloor (q : ℚ) : ℤ :=
  Int.fdiv q.num q.den

/-- Round a rational to the nearest integer, ties to even — the rounding
of the Python `round` builtin, applied to the exact value. -/
def pyRound (q : ℚ) : ℤ :=
  let f : ℤ := pyFloor q
  let r : ℚ := q - f
  if r < 1 / 2 then f
  else if 1 / 2 < r then f + 1
  else if f % 2 = 0 then f else f + 1

/-- `round(x, 4)`. -/
def round4 (q : ℚ) : ℚ :=
  (pyRound (q * 10000) : ℚ) / 10000

/-! ## Data model (the GeoJSON report collection of `inference.py`) -/

/-- One per-label statistics record of a report
(an element of `properties.labels`). -/
structure LabelStat where
  label : ℤ
  avg_confidence : ℚ
  min_confidence : ℚ
  max_confidence : ℚ
  count : ℕ
deriving DecidableEq

/-- One report (a GeoJSON feature): the aggregated result for one image.
The two coordinate fields are the entries of the GeoJSON
`geometry.coordinates = [longitude, latitude]` pair. -/
structure Feature where
  image : String
  image_id : String
  longitude : ℚ
  latitude : ℚ
  labels : List LabelStat
deriving DecidableEq

/-- The `confidence_stats` block of the collection summary. -/
structure ConfidenceStats where
  min : ℚ
  max : ℚ
  avg : ℚ
deriving DecidableEq

/-- The derived collection summary. -/
structure Summary where
  total_images : ℕ
  unique_labels : List ℤ
  total_detections : ℕ
  confidence_stats : ConfidenceStats
deriving DecidableEq

/-- A parsed `FeatureCollection` value: the features plus the summary
block, which an externally produced file may lack. -/
structure GeoJson where
  features : List Feature
  summary : Option Summary
deriving DecidableEq

/-- One metadata record. `geometry` is `some (longitude, latitude)` when
the record carries `geometry.coordinates` (the metadata file format
stores a two-element `[longitude, latitude]` array), and `none` when the
record lacks geometry or coordinates. -/
structure MetaEntry where
  id : Option String
  image_id : Option String
  geometry : Option (ℚ × ℚ)
deriving DecidableEq

/-- The observable states of the detections file that
`save_detections_to_json` reads and rewrites. The first five
constructors are the states in which loading falls back to the empty
collection: the file is absent, opening or reading it raises, `json.load`
raises, the parsed value is not a dict (the `.get` attribute lookup
raises, caught by the bare `except`), or the parsed dict has a top-level
`type` other than `FeatureCollection`. -/
inductive CollectionFile
  | absent
  | unreadable
  | notJson
  | parsedNonDict
  | parsedWrongType
  | parsedCollection (g : GeoJson)
deriving DecidableEq

/-! ## Association lists (Python dicts) -/

/-- First-match lookup in an association list (`d[k]` / `k in d`). -/
def alookup {κ α : Type} [DecidableEq κ] (k : κ) : List (κ × α) → Option α
  | [] => none
  | (k', v) :: rest => if k' = k then some v else alookup k rest

/-- Dict assignment `d[k] = v`: replace the binding in place when the key
is present, otherwise append it at the end. -/
def dinsert {κ α : Type} [DecidableEq κ] : List (κ × α) → κ → α → List (κ × α)
  | [], k, v => [(k, v)]
  | (k', v') :: rest, k, v =>
    if k' = k then (k, v) :: rest else (k', v') :: dinsert rest k v

/-- `d.update(d2)`: assign every binding of the second dict into the
first, in order. -/
def dupdate {κ α : Type} [DecidableEq κ] (m m2 : List (κ × α)) : List (κ × α) :=
  m2.foldl (fun acc p => dinsert acc p.1 p.2) m

/-! ## Grouping detections by label (`label_confidences`, inference.py) -/

/-- Append one score to the group of its label, creating the group at the
end when the label is new — the effect of
`label_confidences[label_int].append(float(score))` on the
insertion-ordered dict. -/
def addDet : List (ℤ × List ℚ) → ℤ → ℚ → List (ℤ × List ℚ)
  | [], l, s => [(l, [s])]
  | (l', ss) :: rest, l, s =>
    if l' = l then (l', ss ++ [s]) :: rest else (l', ss) :: addDet rest l s

/-- The `label_confidences` dict: scores of the surviving detections
grouped by label, groups in first-seen order, scores in traversal
order. -/
def groupScores (dets : List (ℤ × ℚ)) : List (ℤ × List ℚ) :=
  dets.foldl (fun g p => addDet g p.1 p.2) []

/-- Reference value for the statements about grouping: the scores of the
detections of one label among the surviving detections, in traversal
order. -/
def scoresFor (dets : List (ℤ × ℚ)) (l : ℤ) : List ℚ :=
  (dets.filter (fun p => decide (p.1 = l))).map (fun p => p.2)

/-- The keys of a grouping dict. -/
def keysOf (g : List (ℤ × List ℚ)) : List ℤ :=
  g.map (fun p => p.1)

/-- Total number of scores stored across the groups. -/
def sizeSum (g : List (ℤ × List ℚ)) : ℕ :=
  (g.map (fun p => p.2.length)).sum

/-- Minimum of a list of rationals (Python `min`; 0 on the empty list,
which the source never reaches). -/
def qmin : List ℚ → ℚ
  | [] => 0
  | x :: xs => xs.foldl min x

/-- Maximum of a list of rationals (Python `max`; 0 on the empty list,
which the source never reaches). -/
def qmax : List ℚ → ℚ
  | [] => 0
  | x :: xs => xs.foldl max x

/-- The per-label statistics entry built for one group. -/
def mkStat (l : ℤ) (ss : List ℚ) : LabelStat :=
  { label := l
    avg_confidence := round4 (ss.sum / (ss.length : ℚ))
    min_confidence := round4 (qmin ss)
    max_confidence := round4 (qmax ss)
    count := ss.length }

/-- Key order used by `sorted(label_confidences.items())`; the keys of
the dict are distinct, so only the first components are compared. -/
def keyLE (a b : ℤ × List ℚ) : Prop :=
  a.1 ≤ b.1

instance : DecidableRel keyLE :=
  fun a b => (inferInstance : Decidable (a.1 ≤ b.1))

instance : IsTotal (ℤ × List ℚ) keyLE :=
  ⟨fun a b => le_total a.1 b.1⟩

instance : IsTrans (ℤ × List ℚ) keyLE :=
  ⟨fun _ _ _ h1 h2 => le_trans h1 h2⟩

/-- `labels_info`: the per-label statistics of the surviving detections,
in ascending label order. -/
def labelsInfo (filtered : List (ℤ × ℚ)) : List LabelStat :=
  (List.insertionSort keyLE (groupScores filtered)).map (fun p => mkStat p.1 p.2)

/-! ## Collection summary (`geojson["summary"]`, inference.py) -/

/-- All `LabelStat` entries of all features, in order — the iteration
`for feat in geojson["features"] for lbl in feat["properties"]["labels"]`. -/
def allStats : List Feature → List LabelStat
  | [] => []
  | f :: fs => f.labels ++ allStats fs

/-- The summary block recomputed from the feature list, exactly as the
source builds `geojson["summary"]`. -/
def computeSummary (feats : List Feature) : Summary :=
  let stats := allStats feats
  { total_images := feats.length
    unique_labels := List.insertionSort (· ≤ ·) (stats.map (fun s => s.label)).dedup
    total_detections := (stats.map (fun s => s.count)).sum
    confidence_stats :=
      { min :=
          if feats = [] then 0
          else round4 (qmin (stats.map (fun s => s.min_confidence)))
        max :=
          if feats = [] then 0
          else round4 (qmax (stats.map (fun s => s.max_confidence)))
        avg :=
          if feats = [] then 0
          else
            round4
              ((stats.map (fun s => s.avg_confidence * (s.count : ℚ))).sum /
                (((stats.map (fun s => s.count)).sum : ℕ) : ℚ)) } }

/-! ## The aggregation engine (`save_detections_to_json`, inference.py) -/

/-- `filtered_data`: the label/score pairs at or above the threshold. -/
def filteredData (labels : List ℤ) (scores : List ℚ) (threshold : ℚ) :
    List (ℤ × ℚ) :=
  (labels.zip scores).filter (fun p => decide (threshold ≤ p.2))

/-- The metadata lookup of `save_detections_to_json`: the entry of the
resolved identifier, provided it carries `geometry.coordinates`;
otherwise `none` (the "no metadata found" diagnostic path). -/
def lookupCoords (metadata_map : List (String × MetaEntry)) (image_id : String) :
    Option (ℚ × ℚ) :=
  match alookup image_id metadata_map with
  | some e =>
    match e.geometry with
    | some c => some c
    | none => none
  | none => none

/-- Loading the prior collection (lines 275-285 of inference.py): any
absent, unreadable or malformed file, and any parsed value whose
top-level `type` is not `FeatureCollection`, falls back to the empty
collection. -/
def loadCollection : CollectionFile → GeoJson
  | CollectionFile.parsedCollection g => g
  | _ => { features := [], summary := none }

/-- The feature built for one image. -/
def mkFeature (image_path : String) (filtered : List (ℤ × ℚ)) (lon lat : ℚ) :
    Feature :=
  { image := pathName image_path
    image_id := extract_image_id (pathName image_path)
    longitude := lon
    latitude := lat
    labels := labelsInfo filtered }

/-- `save_detections_to_json`: filter by threshold, resolve the image
id, join with metadata, aggregate per label, append to the loaded
collection, recompute the summary and write the file back. Returns the
optional feature together with the resulting file state; both early
`return None` paths leave the file untouched. The `boxes` argument is
accepted and ignored, as in the source. -/
def save_detections_to_json (image_path : String)
    (boxes : List (ℚ × ℚ × ℚ × ℚ)) (labels : List ℤ) (scores : List ℚ)
    (metadata_map : List (String × MetaEntry)) (file : CollectionFile)
    (confidence_threshold : ℚ) : Option Feature × CollectionFile :=
  let filtered_data := filteredData labels scores confidence_threshold
  if filtered_data = [] then (none, file)
  else
    match lookupCoords metadata_map (extract_image_id (pathName image_path)) with
    | none => (none, file)
    | some (lon, lat) =>
      let feature := mkFeature image_path filtered_data lon lat
      let feats := (loadCollection file).features ++ [feature]
      (some feature,
        CollectionFile.parsedCollection
          { features := feats, summary := some (computeSummary feats) })

/-! ## Metadata Store (`load_metadata`, inference.py, and the two-source
merge of `run_inference_on_images`, streamlit_app.py) -/

/-- The observable states of one metadata source: the file is absent, it
exists but `json.load` raises, or it parses as a list of records, a dict
carrying an `id` field (a single record), or a dict that already is the
mapping. -/
inductive MetaSource
  | missing
  | unparsable
  | parsedList (entries : List MetaEntry)
  | parsedSingle (key : String) (e : MetaEntry)
  | parsedMap (m : List (String × MetaEntry))
deriving DecidableEq

/-- A Python-truthy string option: `None` and the empty string are
falsy. -/
def truthyStr : Option String → Option String
  | some s => if s = "" then none else some s
  | none => none

/-- `entry.get("id") or entry.get("image_id")`: the first truthy of the
two fields. -/
def entryKey (e : MetaEntry) : Option String :=
  match truthyStr e.id with
  | some s => some s
  | none => truthyStr e.image_id

/-- `load_metadata`: a missing file yields the empty mapping; a file that
exists but does not parse raises (there is no handler around
`json.load`), modelled as `Except.error`; a parsed value is normalized
into the mapping. -/
def load_metadata : MetaSource → Except Unit (List (String × MetaEntry))
  | MetaSource.missing => Except.ok []
  | MetaSource.unparsable => Except.error ()
  | MetaSource.parsedList entries =>
    Except.ok
      (entries.foldl
        (fun m e =>
          match entryKey e with
          | some k => dinsert m k e
          | none => m)
        [])
  | MetaSource.parsedSingle k e => Except.ok [(k, e)]
  | MetaSource.parsedMap m => Except.ok m

/-- The accumulation loop of `run_inference_on_images`: start from the
empty dict and `update` with each loaded source in order; an exception
raised by a load aborts the whole run. -/
def load_sources_from (acc : List (String × MetaEntry)) :
    List MetaSource → Except Unit (List (String × MetaEntry))
  | [] => Except.ok acc
  | s :: rest =>
    match load_metadata s with
    | Except.error e => Except.error e
    | Except.ok m => load_sources_from (dupdate acc m) rest

/-- Loading and merging an ordered list of metadata sources. -/
def load_sources (sources : List MetaSource) :
    Except Unit (List (String × MetaEntry)) :=
  load_sources_from [] sources

/-! ## Box drawing (`draw_bounding_boxes`, inference.py) -/

/-- Whether one detection gets a box drawn: its score must reach the
threshold and its box, converted from center form to corner form and
clamped to the image bounds, must keep a width and height of at least one
pixel. -/
def boxDrawn (img_width img_height : ℚ) (box : ℚ × ℚ × ℚ × ℚ)
    (score threshold : ℚ) : Bool :=
  match box with
  | (x_center, y_center, width, height) =>
    if score < threshold then false
    else
      let x1 := max 0 (min (x_center - width / 2) img_width)
      let x2 := max 0 (min (x_center + width / 2) img_width)
      let y1 := max 0 (min (y_center - height / 2) img_height)
      let y2 := max 0 (min (y_center + height / 2) img_height)
      if x2 - x1 < 1 ∨ y2 - y1 < 1 then false else true

/-- Reference predicate: a box is degenerate when, after conversion to
corner form and clamping to the image bounds, its width or height is
below one pixel — the condition under which the drawing loop skips the
box. -/
def degenerateBox (img_width img_height : ℚ) (box : ℚ × ℚ × ℚ × ℚ) : Bool :=
  match box with
  | (x_center, y_center, width, height) =>
    let x1 := max 0 (min (x_center - width / 2) img_width)
    let x2 := max 0 (min (x_center + width / 2) img_width)
    let y1 := max 0 (min (y_center - height / 2) img_height)
    let y2 := max 0 (min (y_center + height / 2) img_height)
    decide (x2 - x1 < 1 ∨ y2 - y1 < 1)

/-- `draw_bounding_boxes`, abstracted to the list of detections that
receive a drawn box. -/
def draw_bounding_boxes (img_width img_height : ℚ)
    (boxes : List (ℚ × ℚ × ℚ × ℚ)) (labels : List ℤ) (scores : List ℚ)
    (threshold : ℚ) : List ((ℚ × ℚ × ℚ × ℚ) × ℤ × ℚ) :=
  (boxes.zip (labels.zip scores)).filter
    (fun t => boxDrawn img_width img_height t.1 t.2.2 threshold)

/-! ## Incremental Processing Policy (`should_run_inference` and
`run_inference_on_images`, streamlit_app.py) -/

/-- The detection-annotated counterpart filename:
`stem + "_detected" + suffix`. -/
def detectedName (img : String) : String :=
  String.mk
    (pyStem (lastComponent img.data) ++ ("_detected").data ++
      pySuffix (lastComponent img.data))

/-- `should_run_inference`: run when the session preload flag is unset,
or when some user-uploaded image has no detected counterpart in the
output directory. -/
def should_run_inference (preload_inference_done : Bool)
    (user_images : List String) (output_files : List String) : Bool :=
  if preload_inference_done = false then true
  else
    user_images.any (fun img => !(decide (detectedName img ∈ output_files)))

/-- The set of images actually run through inference: when
`should_run_inference` triggers, `run_inference_on_images` wipes the
output directory and processes every image of both directories; when it
does not trigger, nothing is processed. -/
def selected_images (preload_inference_done : Bool)
    (pre_images user_images output_files : List String) : List String :=
  if should_run_inference preload_inference_done user_images output_files then
    pre_images ++ user_images
  else []

/-! ## Lemmas on grouping -/

theorem alookup_addDet (g : List (ℤ × List ℚ)) (l : ℤ) (s : ℚ) (l' : ℤ) :
    alookup l' (addDet g l s) =
      if l' = l then some ((alookup l g).getD [] ++ [s]) else alookup l' g := by
  induction g with
  | nil =>
    by_cases h : l' = l
    · subst h; simp [addDet, alookup]
    · simp [addDet, alookup, h, Ne.symm h]
  | cons p rest ih =>
    obtain ⟨k, ss⟩ := p
    by_cases hk : k = l
    · subst hk
      by_cases h : l' = k
      · subst h; simp [addDet, alookup]
      · simp [addDet, alookup, h, Ne.symm h]
    · by_cases h : l' = l
      · subst h
        simp only [addDet, if_neg hk, alookup, if_neg (fun hkl => hk hkl)]
        rw [ih]
        simp
      · by_cases hkl : k = l'
        · subst hkl
          simp [addDet, alookup, hk, h]
        · simp only [addDet, if_neg hk, alookup, if_neg hkl]
          rw [ih, if_neg h]

theorem groupScores_concat (dets : List (ℤ × ℚ)) (d : ℤ × ℚ) :
    groupScores (dets ++ [d]) = addDet (groupScores dets) d.1 d.2 := by
  simp [groupScores, List.foldl_append]

theorem scoresFor_concat (dets : List (ℤ × ℚ)) (d : ℤ × ℚ) (l : ℤ) :
    scoresFor (dets ++ [d]) l =
      scoresFor dets l ++ (if d.1 = l then [d.2] else []) := by
  by_cases h : d.1 = l <;> simp [scoresFor, List.filter_append, h]

theorem alookup_groupScores (dets : List (ℤ × ℚ)) (l : ℤ) :
    alookup l (groupScores dets) =
      if scoresFor dets l = [] then none else some (scoresFor dets l) := by
  induction dets using List.reverseRecOn with
  | nil => simp [groupScores, scoresFor, alookup]
  | append_singleton dets d ih =>
    rw [groupScores_concat, alookup_addDet, scoresFor_concat]
    by_cases h : l = d.1
    · subst h
      rw [if_pos rfl, if_pos rfl, ih]
      by_cases h0 : scoresFor dets d.1 = [] <;> simp [h0]
    · rw [if_neg h, ih]
      simp [Ne.symm h]

theorem keysOf_addDet (g : List (ℤ × List ℚ)) (l : ℤ) (s : ℚ) :
    keysOf (addDet g l s) =
      if l ∈ keysOf g then keysOf g else keysOf g ++ [l] := by
  induction g with
  | nil => simp [addDet, keysOf]
  | cons p rest ih =>
    obtain ⟨k, ss⟩ := p
    by_cases hk : k = l
    · subst hk; simp [addDet, keysOf]
    · have hkl : ¬l = k := fun hh => hk hh.symm
      simp only [addDet, if_neg hk, keysOf, List.map_cons] at ih ⊢
      rw [ih]
      by_cases hm : l ∈ List.map (fun p => p.1) rest
      · simp [hm, hkl]
      · simp [hm, hkl]

theorem nodup_keysOf_addDet (g : List (ℤ × List ℚ)) (l : ℤ) (s : ℚ)
    (h : (keysOf g).Nodup) : (keysOf (addDet g l s)).Nodup := by
  rw [keysOf_addDet]
  by_cases hm : l ∈ keysOf g
  · simpa [hm] using h
  · rw [if_neg hm]
    refine List.Nodup.append h (List.nodup_singleton l) ?_
    intro x hx hxm
    rw [List.mem_singleton] at hxm
    exact hm (hxm ▸ hx)

theorem nodup_keysOf_groupScores (dets : List (ℤ × ℚ)) :
    (keysOf (groupScores dets)).Nodup := by
  suffices h : ∀ g : List (ℤ × List ℚ), (keysOf g).Nodup →
      (keysOf (dets.foldl (fun g p => addDet g p.1 p.2) g)).Nodup by
    exact h [] (by simp [keysOf])
  induction dets with
  | nil => exact fun g hg => hg
  | cons d rest ih =>
    exact fun g hg => ih (addDet g d.1 d.2) (nodup_keysOf_addDet g d.1 d.2 hg)

theorem alookup_of_mem_nodup {κ α : Type} [DecidableEq κ]
    {m : List (κ × α)} {k : κ} {v : α} (hm : (k, v) ∈ m)
    (hn : (m.map Prod.fst).Nodup) : alookup k m = some v := by
  induction m with
  | nil => cases hm
  | cons p rest ih =>
    obtain ⟨k', v'⟩ := p
    rcases List.mem_cons.mp hm with h | h
    · obtain ⟨rfl, rfl⟩ := Prod.mk.injEq .. ▸ h
      simp [alookup]
    · have hk : k' ≠ k := by
        rintro rfl
        exact (List.nodup_cons.mp hn).1
          (by simpa using ⟨v, h⟩)
      simp only [alookup, if_neg hk]
      exact ih h (List.nodup_cons.mp hn).2

theorem sizeSum_addDet (g : List (ℤ × List ℚ)) (l : ℤ) (s : ℚ) :
    sizeSum (addDet g l s) = sizeSum g + 1 := by
  induction g with
  | nil => simp [addDet, sizeSum]
  | cons p rest ih =>
    obtain ⟨k, ss⟩ := p
    by_cases hk : k = l
    · subst hk
      have he : addDet ((k, ss) :: rest) k s = (k, ss ++ [s]) :: rest := by
        simp [addDet]
      rw [he]
      simp only [sizeSum, List.map_cons, List.sum_cons, List.length_append,
        List.length_cons, List.length_nil]
      omega
    · simp only [addDet, if_neg hk, sizeSum, List.map_cons, List.sum_cons] at *
      omega

theorem sizeSum_groupScores (dets : List (ℤ × ℚ)) :
    sizeSum (groupScores dets) = dets.length := by
  suffices h : ∀ g : List (ℤ × List ℚ),
      sizeSum (dets.foldl (fun g p => addDet g p.1 p.2) g) =
        sizeSum g + dets.length by
    simpa [sizeSum] using h []
  induction dets with
  | nil => simp
  | cons d rest ih =>
    intro g
    simp only [List.foldl_cons, List.length_cons, ih (addDet g d.1 d.2),
      sizeSum_addDet]
    omega

/-! ## Lemmas on the per-label statistics and the summary -/

theorem sum_counts_labelsInfo (filtered : List (ℤ × ℚ)) :
    ((labelsInfo filtered).map (fun s => s.count)).sum = filtered.length := by
  have hperm :
      List.Perm (List.insertionSort keyLE (groupScores filtered))
        (groupScores filtered) :=
    List.perm_insertionSort keyLE (groupScores filtered)
  calc ((labelsInfo filtered).map (fun s => s.count)).sum
      = ((List.insertionSort keyLE (groupScores filtered)).map
          (fun p => p.2.length)).sum := by
        simp [labelsInfo, List.map_map, Function.comp_def, mkStat]
    _ = ((groupScores filtered).map (fun p => p.2.length)).sum :=
        (hperm.map _).sum_eq
    _ = filtered.length := sizeSum_groupScores filtered

theorem labelsInfo_sorted (filtered : List (ℤ × ℚ)) :
    (labelsInfo filtered).Pairwise (fun a b => a.label ≤ b.label) := by
  have hs := List.sorted_insertionSort keyLE (groupScores filtered)
  exact List.Pairwise.map _ (fun a b h => h) hs

theorem labelsInfo_stats (filtered : List (ℤ × ℚ)) {st : LabelStat}
    (hst : st ∈ labelsInfo filtered) :
    scoresFor filtered st.label ≠ [] ∧
      st = mkStat st.label (scoresFor filtered st.label) := by
  obtain ⟨p, hp, rfl⟩ := List.mem_map.mp hst
  have hpg : p ∈ groupScores filtered :=
    (List.perm_insertionSort keyLE (groupScores filtered)).mem_iff.mp hp
  obtain ⟨l, ss⟩ := p
  have hlk : alookup l (groupScores filtered) = some ss :=
    alookup_of_mem_nodup hpg (nodup_keysOf_groupScores filtered)
  rw [alookup_groupScores] at hlk
  by_cases h0 : scoresFor filtered l = []
  · rw [if_pos h0] at hlk; cases hlk
  · rw [if_neg h0] at hlk
    have hss : scoresFor filtered l = ss := Option.some.inj hlk
    constructor
    · show scoresFor filtered (mkStat l ss).label ≠ []
      simpa [mkStat, hss] using fun he => h0 (hss ▸ he)
    · show mkStat l ss = mkStat (mkStat l ss).label (scoresFor filtered (mkStat l ss).label)
      simp [mkStat, hss]

theorem unique_labels_sorted (feats : List Feature) :
    ((computeSummary feats).unique_labels).Sorted (· ≤ ·) := by
  simp only [computeSummary]
  exact List.sorted_insertionSort _ _

theorem unique_labels_nodup (feats : List Feature) :
    ((computeSummary feats).unique_labels).Nodup := by
  simp only [computeSummary]
  exact (List.perm_insertionSort _ _).nodup_iff.mpr (List.nodup_dedup _)

theorem mem_unique_labels (feats : List Feature) (l : ℤ) :
    l ∈ (computeSummary feats).unique_labels ↔
      ∃ st ∈ allStats feats, st.label = l := by
  simp only [computeSummary]
  rw [(List.perm_insertionSort _ _).mem_iff]
  simp

/-! ## Lemmas on dict update -/

theorem alookup_dinsert {κ α : Type} [DecidableEq κ] (m : List (κ × α))
    (k k' : κ) (v : α) :
    alookup k' (dinsert m k v) = if k' = k then some v else alookup k' m := by
  induction m with
  | nil =>
    by_cases h : k' = k
    · subst h; simp [dinsert, alookup]
    · simp [dinsert, alookup, h, Ne.symm h]
  | cons p rest ih =>
    obtain ⟨k2, v2⟩ := p
    by_cases hk : k2 = k
    · subst hk
      by_cases h : k' = k2
      · subst h; simp [dinsert, alookup]
      · simp [dinsert, alookup, h, Ne.symm h]
    · by_cases h : k' = k
      · subst h
        simp only [dinsert, if_neg hk, alookup, if_neg hk]
        rw [ih]
        simp
      · by_cases h2 : k2 = k'
        · subst h2
          simp [dinsert, alookup, hk, h]
        · simp only [dinsert, if_neg hk, alookup, if_neg h2]
          rw [ih, if_neg h]

theorem alookup_eq_none_of_not_mem {κ α : Type} [DecidableEq κ]
    {m : List (κ × α)} {k : κ} (h : k ∉ m.map Prod.fst) :
    alookup k m = none := by
  induction m with
  | nil => rfl
  | cons p rest ih =>
    obtain ⟨k2, v2⟩ := p
    simp only [List.map_cons, List.mem_cons] at h
    push_neg at h
    have hne : ¬k2 = k := fun hh => h.1 hh.symm
    simp only [alookup, if_neg hne]
    exact ih h.2

theorem dupdate_cons {κ α : Type} [DecidableEq κ] (m : List (κ × α))
    (p : κ × α) (rest : List (κ × α)) :
    dupdate m (p :: rest) = dupdate (dinsert m p.1 p.2) rest := by
  simp [dupdate]

theorem alookup_dupdate_none {κ α : Type} [DecidableEq κ]
    (m1 m2 : List (κ × α)) (k : κ) (h : alookup k m2 = none) :
    alookup k (dupdate m1 m2) = alookup k m1 := by
  induction m2 generalizing m1 with
  | nil => rfl
  | cons p rest ih =>
    obtain ⟨k2, v2⟩ := p
    simp only [alookup] at h
    by_cases hk : k2 = k
    · rw [if_pos hk] at h; cases h
    · rw [if_neg hk] at h
      rw [dupdate_cons, ih (dinsert m1 k2 v2) h, alookup_dinsert,
        if_neg (fun hh => hk hh.symm)]

theorem alookup_dupdate_some {κ α : Type} [DecidableEq κ]
    (m1 m2 : List (κ × α)) (k : κ) (v : α)
    (hn : (m2.map Prod.fst).Nodup) (h : alookup k m2 = some v) :
    alookup k (dupdate m1 m2) = some v := by
  induction m2 generalizing m1 with
  | nil => cases h
  | cons p rest ih =>
    obtain ⟨k2, v2⟩ := p
    simp only [List.map_cons, List.nodup_cons] at hn
    simp only [alookup] at h
    by_cases hk : k2 = k
    · subst hk
      rw [if_pos rfl] at h
      obtain rfl := Option.some.inj h
      have hnone : alookup k2 rest = none :=
        alookup_eq_none_of_not_mem hn.1
      rw [dupdate_cons, alookup_dupdate_none _ _ _ hnone, alookup_dinsert,
        if_pos rfl]
    · rw [if_neg hk] at h
      rw [dupdate_cons]
      exact ih (dinsert m1 k2 v2) hn.2 h

theorem load_sources_from_unparsable (acc : List (String × MetaEntry))
    (ss ts : List MetaSource) :
    load_sources_from acc (ss ++ MetaSource.unparsable :: ts) =
      Except.error () := by
  induction ss generalizing acc with
  | nil => rfl
  | cons s rest ih =>
    cases s with
    | unparsable => rfl
    | missing => exact ih _
    | parsedList entries => exact ih _
    | parsedSingle k e => exact ih _
    | parsedMap m => exact ih _

/-! ## Claim theorems -/

/-- C10: the Image Identifier Resolver returns the two example values of
the spec, and a filename whose stem starts with the crowd-upload marker
but splits into fewer than 4 underscore-separated parts falls through to
Convention B, the chunk of the stem before the first underscore. -/
theorem C10_extract_image_id :
    extract_image_id "pothole_20251130_091234_567.jpg" = "20251130_091234_567" ∧
    extract_image_id "3736697343123377_1578561568299.jpg" = "3736697343123377" ∧
    (∀ fn : String,
      isPref ("pothole_").data (pyStem (lastComponent fn.data)) = true →
      (splitOnChar '_' (pyStem (lastComponent fn.data))).length < 4 →
      extract_image_id fn = String.mk (firstPart (pyStem (lastComponent fn.data)))) := by
  refine ⟨by decide, by decide, ?_⟩
  intro fn hpref hlen
  have hneg : ¬(isPref ("pothole_").data (pyStem (lastComponent fn.data)) = true ∧
      4 ≤ (splitOnChar '_' (pyStem (lastComponent fn.data))).length) := by
    rintro ⟨-, h2⟩
    omega
  simp only [extract_image_id]
  rw [if_neg hneg]

/-- Witness for C10 at the concrete filename "pothole_123.jpg". -/
theorem C10_extract_image_id_witness :
    isPref ("pothole_").data (pyStem (lastComponent ("pothole_123.jpg").data)) = true ∧
    (splitOnChar '_' (pyStem (lastComponent ("pothole_123.jpg").data))).length < 4 ∧
    extract_image_id "pothole_123.jpg" =
      String.mk (firstPart (pyStem (lastComponent ("pothole_123.jpg").data))) :=
  ⟨by decide, by decide,
    C10_extract_image_id.2.2 "pothole_123.jpg" (by decide) (by decide)⟩

/-- C1: with at least one surviving detection and coordinates resolved
from the metadata, `save_detections_to_json` returns a feature whose
label statistics are sorted by ascending label id, whose every entry
carries the count and the rounded min/avg/max confidence of its group of
surviving detections, and whose counts sum to the number of surviving
detections. -/
theorem C1_aggregate_report (image_path : String)
    (boxes : List (ℚ × ℚ × ℚ × ℚ)) (labels : List ℤ) (scores : List ℚ)
    (metadata_map : List (String × MetaEntry)) (file : CollectionFile)
    (thr lon lat : ℚ)
    (h1 : filteredData labels scores thr ≠ [])
    (h2 : lookupCoords metadata_map (extract_image_id (pathName image_path)) =
      some (lon, lat)) :
    ∃ f : Feature,
      (save_detections_to_json image_path boxes labels scores metadata_map file
          thr).1 = some f ∧
      f.labels.Pairwise (fun a b => a.label ≤ b.label) ∧
      (f.labels.map (fun s => s.count)).sum =
        (filteredData labels scores thr).length ∧
      ∀ st ∈ f.labels,
        st.count = (scoresFor (filteredData labels scores thr) st.label).length ∧
        st.min_confidence =
          round4 (qmin (scoresFor (filteredData labels scores thr) st.label)) ∧
        st.max_confidence =
          round4 (qmax (scoresFor (filteredData labels scores thr) st.label)) ∧
        st.avg_confidence =
          round4 ((scoresFor (filteredData labels scores thr) st.label).sum /
            ((scoresFor (filteredData labels scores thr) st.label).length : ℚ)) := by
  refine ⟨mkFeature image_path (filteredData labels scores thr) lon lat,
    ?_, ?_, ?_, ?_⟩
  · simp only [save_detections_to_json, if_neg h1, h2]
  · simpa [mkFeature] using labelsInfo_sorted (filteredData labels scores thr)
  · simpa [mkFeature] using sum_counts_labelsInfo (filteredData labels scores thr)
  · intro st hst
    obtain ⟨hne, he⟩ :=
      labelsInfo_stats (filteredData labels scores thr)
        (by simpa [mkFeature] using hst)
    refine ⟨?_, ?_, ?_, ?_⟩ <;>
      (conv_lhs => rw [he]) <;> simp [mkStat]

/-- Witness for C1: two detections of label 2 and one of label 1, all at
or above the threshold, with metadata present for the resolved id. -/
theorem C1_aggregate_report_witness :
    filteredData [2, 1, 2] [9/10, 8/10, 6/10] (1/2) ≠ [] ∧
    lookupCoords [("img", ⟨some "img", none, some (9, 45)⟩)]
      (extract_image_id (pathName "img_1.jpg")) = some (9, 45) ∧
    (∃ f : Feature,
      (save_detections_to_json "img_1.jpg" [] [2, 1, 2] [9/10, 8/10, 6/10]
          [("img", ⟨some "img", none, some (9, 45)⟩)] CollectionFile.absent
          (1/2)).1 = some f ∧
      f.labels.Pairwise (fun a b => a.label ≤ b.label) ∧
      (f.labels.map (fun s => s.count)).sum =
        (filteredData [2, 1, 2] [9/10, 8/10, 6/10] (1/2)).length ∧
      ∀ st ∈ f.labels,
        st.count =
          (scoresFor (filteredData [2, 1, 2] [9/10, 8/10, 6/10] (1/2))
            st.label).length ∧
        st.min_confidence =
          round4 (qmin (scoresFor (filteredData [2, 1, 2] [9/10, 8/10, 6/10]
            (1/2)) st.label)) ∧
        st.max_confidence =
          round4 (qmax (scoresFor (filteredData [2, 1, 2] [9/10, 8/10, 6/10]
            (1/2)) st.label)) ∧
        st.avg_confidence =
          round4 ((scoresFor (filteredData [2, 1, 2] [9/10, 8/10, 6/10] (1/2))
              st.label).sum /
            ((scoresFor (filteredData [2, 1, 2] [9/10, 8/10, 6/10] (1/2))
              st.label).length : ℚ))) :=
  ⟨by decide, by decide,
    C1_aggregate_report "img_1.jpg" [] [2, 1, 2] [9/10, 8/10, 6/10]
      [("img", ⟨some "img", none, some (9, 45)⟩)] CollectionFile.absent
      (1/2) 9 45 (by decide) (by decide)⟩

/-- C2: the aggregation returns a feature exactly when at least one
detection reaches the threshold and coordinates are resolved for the
image id; in every null case it leaves the file state untouched. -/
theorem C2_null_cases (image_path : String) (boxes : List (ℚ × ℚ × ℚ × ℚ))
    (labels : List ℤ) (scores : List ℚ)
    (metadata_map : List (String × MetaEntry)) (file : CollectionFile)
    (thr : ℚ) :
    ((save_detections_to_json image_path boxes labels scores metadata_map file
          thr).1 ≠ none ↔
      filteredData labels scores thr ≠ [] ∧
      lookupCoords metadata_map (extract_image_id (pathName image_path)) ≠
        none) ∧
    ((save_detections_to_json image_path boxes labels scores metadata_map file
          thr).1 = none →
      (save_detections_to_json image_path boxes labels scores metadata_map file
          thr).2 = file) := by
  by_cases h1 : filteredData labels scores thr = []
  · simp [save_detections_to_json, h1]
  · cases h2 : lookupCoords metadata_map (extract_image_id (pathName image_path)) with
    | none => simp [save_detections_to_json, h1, h2]
    | some c =>
      obtain ⟨lon, lat⟩ := c
      simp [save_detections_to_json, h1, h2]

/-- Witness for C2 at a run whose only detection is below the
threshold. -/
theorem C2_null_cases_witness :
    ((save_detections_to_json "x_1.jpg" [] [1] [1/4] [] CollectionFile.absent
          (1/2)).1 ≠ none ↔
      filteredData [1] [1/4] (1/2) ≠ [] ∧
      lookupCoords [] (extract_image_id (pathName "x_1.jpg")) ≠ none) ∧
    ((save_detections_to_json "x_1.jpg" [] [1] [1/4] [] CollectionFile.absent
          (1/2)).1 = none →
      (save_detections_to_json "x_1.jpg" [] [1] [1/4] [] CollectionFile.absent
          (1/2)).2 = CollectionFile.absent) :=
  C2_null_cases "x_1.jpg" [] [1] [1/4] [] CollectionFile.absent (1/2)

/-- C3: every successful aggregation writes back a collection whose
summary is recomputed from the full updated feature sequence:
total_images is the number of features, total_detections the sum of all
per-label counts, and unique_labels the ascending duplicate-free list of
all label ids occurring in any feature. -/
theorem C3_summary_recomputed (image_path : String)
    (boxes : List (ℚ × ℚ × ℚ × ℚ)) (labels : List ℤ) (scores : List ℚ)
    (metadata_map : List (String × MetaEntry)) (file : CollectionFile)
    (thr lon lat : ℚ)
    (h1 : filteredData labels scores thr ≠ [])
    (h2 : lookupCoords metadata_map (extract_image_id (pathName image_path)) =
      some (lon, lat)) :
    ∃ (f : Feature) (g : GeoJson),
      save_detections_to_json image_path boxes labels scores metadata_map file
          thr = (some f, CollectionFile.parsedCollection g) ∧
      g.features = (loadCollection file).features ++ [f] ∧
      g.summary = some (computeSummary g.features) ∧
      (computeSummary g.features).total_images = g.features.length ∧
      (computeSummary g.features).total_detections =
        ((allStats g.features).map (fun s => s.count)).sum ∧
      ((computeSummary g.features).unique_labels).Sorted (· ≤ ·) ∧
      ((computeSummary g.features).unique_labels).Nodup ∧
      (∀ l : ℤ, l ∈ (computeSummary g.features).unique_labels ↔
        ∃ st ∈ allStats g.features, st.label = l) := by
  refine ⟨mkFeature image_path (filteredData labels scores thr) lon lat,
    { features := (loadCollection file).features ++
        [mkFeature image_path (filteredData labels scores thr) lon lat]
      summary := some (computeSummary ((loadCollection file).features ++
        [mkFeature image_path (filteredData labels scores thr) lon lat])) },
    ?_, rfl, rfl, rfl, rfl, unique_labels_sorted _, unique_labels_nodup _,
    mem_unique_labels _⟩
  simp only [save_detections_to_json, if_neg h1, h2]

/-- Witness for C3 at a concrete successful aggregation. -/
theorem C3_summary_recomputed_witness :
    filteredData [3] [7/10] (1/2) ≠ [] ∧
    lookupCoords [("img", ⟨some "img", none, some (9, 45)⟩)]
      (extract_image_id (pathName "img_2.jpg")) = some (9, 45) ∧
    (∃ (f : Feature) (g : GeoJson),
      save_detections_to_json "img_2.jpg" [] [3] [7/10]
          [("img", ⟨some "img", none, some (9, 45)⟩)] CollectionFile.notJson
          (1/2) = (some f, CollectionFile.parsedCollection g) ∧
      g.features = (loadCollection CollectionFile.notJson).features ++ [f] ∧
      g.summary = some (computeSummary g.features) ∧
      (computeSummary g.features).total_images = g.features.length ∧
      (computeSummary g.features).total_detections =
        ((allStats g.features).map (fun s => s.count)).sum ∧
      ((computeSummary g.features).unique_labels).Sorted (· ≤ ·) ∧
      ((computeSummary g.features).unique_labels).Nodup ∧
      (∀ l : ℤ, l ∈ (computeSummary g.features).unique_labels ↔
        ∃ st ∈ allStats g.features, st.label = l)) :=
  ⟨by decide, by decide,
    C3_summary_recomputed "img_2.jpg" [] [3] [7/10]
      [("img", ⟨some "img", none, some (9, 45)⟩)] CollectionFile.notJson
      (1/2) 9 45 (by decide) (by decide)⟩

/-- C7: a second aggregation of the same image with the same detections
and metadata appends a second, equal feature: the feature sequence grows
by one on every non-null call, with no deduplication. -/
theorem C7_reaggregation_appends (image_path : String)
    (boxes : List (ℚ × ℚ × ℚ × ℚ)) (labels : List ℤ) (scores : List ℚ)
    (metadata_map : List (String × MetaEntry)) (file : CollectionFile)
    (thr lon lat : ℚ)
    (h1 : filteredData labels scores thr ≠ [])
    (h2 : lookupCoords metadata_map (extract_image_id (pathName image_path)) =
      some (lon, lat)) :
    ∃ (f : Feature) (g : GeoJson),
      save_detections_to_json image_path boxes labels scores metadata_map file
          thr = (some f, CollectionFile.parsedCollection g) ∧
      g.features = (loadCollection file).features ++ [f] ∧
      save_detections_to_json image_path boxes labels scores metadata_map
          (CollectionFile.parsedCollection g) thr =
        (some f, CollectionFile.parsedCollection
          { features := g.features ++ [f]
            summary := some (computeSummary (g.features ++ [f])) }) := by
  refine ⟨mkFeature image_path (filteredData labels scores thr) lon lat,
    { features := (loadCollection file).features ++
        [mkFeature image_path (filteredData labels scores thr) lon lat]
      summary := some (computeSummary ((loadCollection file).features ++
        [mkFeature image_path (filteredData labels scores thr) lon lat])) },
    ?_, rfl, ?_⟩ <;>
    simp only [save_detections_to_json, if_neg h1, h2, loadCollection]

/-- Witness for C7 at a concrete double aggregation. -/
theorem C7_reaggregation_appends_witness :
    filteredData [2] [3/4] (1/2) ≠ [] ∧
    lookupCoords [("img", ⟨some "img", none, some (9, 45)⟩)]
      (extract_image_id (pathName "img_3.jpg")) = some (9, 45) ∧
    (∃ (f : Feature) (g : GeoJson),
      save_detections_to_json "img_3.jpg" [] [2] [3/4]
          [("img", ⟨some "img", none, some (9, 45)⟩)] CollectionFile.absent
          (1/2) = (some f, CollectionFile.parsedCollection g) ∧
      g.features = (loadCollection CollectionFile.absent).features ++ [f] ∧
      save_detections_to_json "img_3.jpg" [] [2] [3/4]
          [("img", ⟨some "img", none, some (9, 45)⟩)]
          (CollectionFile.parsedCollection g) (1/2) =
        (some f, CollectionFile.parsedCollection
          { features := g.features ++ [f]
            summary := some (computeSummary (g.features ++ [f])) })) :=
  ⟨by decide, by decide,
    C7_reaggregation_appends "img_3.jpg" [] [2] [3/4]
      [("img", ⟨some "img", none, some (9, 45)⟩)] CollectionFile.absent
      (1/2) 9 45 (by decide) (by decide)⟩

/-- C9: on any file state other than a parsed FeatureCollection — absent,
unreadable, unparsable JSON, a parsed non-dict, or a dict of the wrong
top-level type — loading yields the empty collection, and a subsequent
valid aggregation succeeds with the new feature appended to that empty
collection. -/
theorem C9_bad_file_empty_start (image_path : String)
    (boxes : List (ℚ × ℚ × ℚ × ℚ)) (labels : List ℤ) (scores : List ℚ)
    (metadata_map : List (String × MetaEntry)) (file : CollectionFile)
    (thr lon lat : ℚ)
    (hbad : ∀ g : GeoJson, file ≠ CollectionFile.parsedCollection g)
    (h1 : filteredData labels scores thr ≠ [])
    (h2 : lookupCoords metadata_map (extract_image_id (pathName image_path)) =
      some (lon, lat)) :
    loadCollection file = { features := [], summary := none } ∧
    save_detections_to_json image_path boxes labels scores metadata_map file
        thr =
      (some (mkFeature image_path (filteredData labels scores thr) lon lat),
        CollectionFile.parsedCollection
          { features :=
              [mkFeature image_path (filteredData labels scores thr) lon lat]
            summary := some (computeSummary
              [mkFeature image_path (filteredData labels scores thr) lon
                lat]) }) := by
  have hload : loadCollection file = { features := [], summary := none } := by
    cases file with
    | absent => rfl
    | unreadable => rfl
    | notJson => rfl
    | parsedNonDict => rfl
    | parsedWrongType => rfl
    | parsedCollection g => exact absurd rfl (hbad g)
  refine ⟨hload, ?_⟩
  simp only [save_detections_to_json, if_neg h1, h2, hload, List.nil_append]

/-- Witness for C9 at a file of the wrong top-level type. -/
theorem C9_bad_file_empty_start_witness :
    (∀ g : GeoJson, CollectionFile.parsedWrongType ≠
      CollectionFile.parsedCollection g) ∧
    filteredData [1] [1] (1/2) ≠ [] ∧
    lookupCoords [("z", ⟨some "z", none, some (0, 0)⟩)]
      (extract_image_id (pathName "z_9.png")) = some (0, 0) ∧
    (loadCollection CollectionFile.parsedWrongType =
      { features := [], summary := none } ∧
    save_detections_to_json "z_9.png" [] [1] [1]
        [("z", ⟨some "z", none, some (0, 0)⟩)]
        CollectionFile.parsedWrongType (1/2) =
      (some (mkFeature "z_9.png" (filteredData [1] [1] (1/2)) 0 0),
        CollectionFile.parsedCollection
          { features := [mkFeature "z_9.png" (filteredData [1] [1] (1/2)) 0 0]
            summary := some (computeSummary
              [mkFeature "z_9.png" (filteredData [1] [1] (1/2)) 0 0]) })) :=
  by
  refine ⟨?_, ?_, ?_, ?_⟩
  · intro g h
    cases h
  · decide
  · decide
  · exact C9_bad_file_empty_start "z_9.png" [] [1] [1]
      [("z", ⟨some "z", none, some (0, 0)⟩)] CollectionFile.parsedWrongType
      (1/2) 0 0 (fun g h => by cases h) (by decide) (by decide)

/-- C8: a degenerate box at or above the threshold is skipped by the
drawing loop, yet its detection survives the threshold filter, and the
aggregation result does not depend on the boxes at all. -/
theorem C8_degenerate_box_counted (img_width img_height thr : ℚ)
    (b : ℚ × ℚ × ℚ × ℚ) (l : ℤ) (s : ℚ)
    (hs : thr ≤ s) (hdeg : degenerateBox img_width img_height b = true) :
    boxDrawn img_width img_height b s thr = false ∧
    (∀ (labels : List ℤ) (scores : List ℚ), (l, s) ∈ labels.zip scores →
      (l, s) ∈ filteredData labels scores thr) ∧
    (∀ (image_path : String) (boxes boxes' : List (ℚ × ℚ × ℚ × ℚ))
      (labels : List ℤ) (scores : List ℚ)
      (metadata_map : List (String × MetaEntry)) (file : CollectionFile),
      save_detections_to_json image_path boxes labels scores metadata_map file
          thr =
        save_detections_to_json image_path boxes' labels scores metadata_map
          file thr) := by
  refine ⟨?_, ?_, ?_⟩
  · obtain ⟨xc, yc, w, h⟩ := b
    simp only [degenerateBox, decide_eq_true_eq] at hdeg
    simp only [boxDrawn]
    rw [if_neg (not_lt.mpr hs), if_pos hdeg]
  · intro labels scores hmem
    simp [filteredData, List.mem_filter, hmem, hs]
  · intro image_path boxes boxes' labels scores metadata_map file
    rfl

/-- Witness for C8: a zero-width box with score 9/10 against threshold
1/2 in a 100 by 100 image. -/
theorem C8_degenerate_box_counted_witness :
    ((1 : ℚ)/2 ≤ 9/10) ∧
    degenerateBox 100 100 (50, 50, 0, 10) = true ∧
    boxDrawn 100 100 (50, 50, 0, 10) (9/10) (1/2) = false ∧
    (3, (9 : ℚ)/10) ∈ filteredData [3] [9/10] (1/2) :=
  ⟨by decide, by decide,
    (C8_degenerate_box_counted 100 100 (1/2) (50, 50, 0, 10) 3 (9/10)
      (by decide) (by decide)).1,
    (C8_degenerate_box_counted 100 100 (1/2) (50, 50, 0, 10) 3 (9/10)
      (by decide) (by decide)).2.1 [3] [9/10] (by decide)⟩

/-- C4 counterexample: on the two-report example of the spec (label
averages 8/10 with count 2 and 6/10 with count 1), the persisted
collection-wide average is 7333/10000, not 733/1000 as the claim
states. -/
theorem C4_weighted_average_counterexample :
    ((loadCollection
        (save_detections_to_json "b_1.jpg" [] [1] [6/10]
          [("a", ⟨some "a", none, some (9, 45)⟩),
            ("b", ⟨some "b", none, some (9, 46)⟩)]
          (save_detections_to_json "a_1.jpg" [] [1, 1] [8/10, 8/10]
            [("a", ⟨some "a", none, some (9, 45)⟩),
              ("b", ⟨some "b", none, some (9, 46)⟩)]
            CollectionFile.absent (1/2)).2
          (1/2)).2).summary.map (fun s => s.confidence_stats.avg)) =
      some (7333/10000) ∧
    ((7333 : ℚ)/10000) ≠ 733/1000 := by
  exact ⟨by decide, by decide⟩

/-- C4 amended: the persisted average is the count-weighted mean of the
per-label averages, rounded to 4 decimal places; on the two-report
example it equals 0.7333 (the rounding of 11/15), which also differs
from the unweighted mean of the per-report averages. -/
theorem C4_weighted_average :
    (∀ feats : List Feature, feats ≠ [] →
      (computeSummary feats).confidence_stats.avg =
        round4
          (((allStats feats).map
              (fun s => s.avg_confidence * (s.count : ℚ))).sum /
            ((((allStats feats).map (fun s => s.count)).sum : ℕ) : ℚ))) ∧
    ((loadCollection
        (save_detections_to_json "d_1.jpg" [] [1] [6/10]
          [("c", ⟨some "c", none, some (9, 45)⟩),
            ("d", ⟨some "d", none, some (9, 46)⟩)]
          (save_detections_to_json "c_1.jpg" [] [1, 1] [8/10, 8/10]
            [("c", ⟨some "c", none, some (9, 45)⟩),
              ("d", ⟨some "d", none, some (9, 46)⟩)]
            CollectionFile.absent (1/2)).2
          (1/2)).2).summary.map (fun s => s.confidence_stats.avg)) =
      some (7333/10000) ∧
    ((7333 : ℚ)/10000) ≠ round4 ((8/10 + 6/10) / 2) := by
  refine ⟨?_, by decide, by decide⟩
  intro feats h
  simp [computeSummary, h]

/-- Witness for C4 at a one-feature collection. -/
theorem C4_weighted_average_witness :
    ([⟨"a.jpg", "a", 9, 45, [⟨1, 8/10, 8/10, 8/10, 2⟩]⟩] : List Feature) ≠
      [] ∧
    (computeSummary
        [⟨"a.jpg", "a", 9, 45, [⟨1, 8/10, 8/10, 8/10, 2⟩]⟩]).confidence_stats.avg =
      round4
        (((allStats [⟨"a.jpg", "a", 9, 45, [⟨1, 8/10, 8/10, 8/10, 2⟩]⟩]).map
            (fun s => s.avg_confidence * (s.count : ℚ))).sum /
          ((((allStats
            [⟨"a.jpg", "a", 9, 45, [⟨1, 8/10, 8/10, 8/10, 2⟩]⟩]).map
            (fun s => s.count)).sum : ℕ) : ℚ)) :=
  ⟨by decide,
    C4_weighted_average.1
      [⟨"a.jpg", "a", 9, 45, [⟨1, 8/10, 8/10, 8/10, 2⟩]⟩] (by decide)⟩

/-- C5 counterexample: an unparsable metadata source is fatal — loading
aborts with the propagated exception instead of contributing an empty
mapping to the merge. -/
theorem C5_unparsable_counterexample :
    load_sources [MetaSource.unparsable] = Except.error () ∧
    load_sources [MetaSource.unparsable] ≠
      Except.ok ([] : List (String × MetaEntry)) := by
  refine ⟨rfl, ?_⟩
  intro h
  cases h

/-- C5 amended: a missing source loads as the empty mapping; an
unparsable source anywhere in the list aborts the whole load with an
exception; when all sources load, they are merged in order and a key
bound by a later source overwrites the binding of any earlier source,
while keys absent from the later source keep their earlier binding. -/
theorem C5_metadata_sources :
    (load_metadata MetaSource.missing = Except.ok []) ∧
    (∀ ss ts : List MetaSource,
      load_sources (ss ++ MetaSource.unparsable :: ts) = Except.error ()) ∧
    (∀ (s1 s2 : MetaSource) (m1 m2 : List (String × MetaEntry)),
      load_metadata s1 = Except.ok m1 → load_metadata s2 = Except.ok m2 →
      load_sources [s1, s2] = Except.ok (dupdate (dupdate [] m1) m2)) ∧
    (∀ (m1 m2 : List (String × MetaEntry)) (k : String) (v : MetaEntry),
      (m2.map Prod.fst).Nodup → alookup k m2 = some v →
      alookup k (dupdate m1 m2) = some v) ∧
    (∀ (m1 m2 : List (String × MetaEntry)) (k : String),
      alookup k m2 = none → alookup k (dupdate m1 m2) = alookup k m1) := by
  refine ⟨rfl, fun ss ts => load_sources_from_unparsable [] ss ts, ?_, ?_, ?_⟩
  · intro s1 s2 m1 m2 h1 h2
    simp [load_sources, load_sources_from, h1, h2]
  · intro m1 m2 k v hn h
    exact alookup_dupdate_some m1 m2 k v hn h
  · intro m1 m2 k h
    exact alookup_dupdate_none m1 m2 k h

/-- Witness for C5: the same key in two sources resolves to the later
binding. -/
theorem C5_metadata_sources_witness :
    (([("a", (⟨none, none, some (1, 2)⟩ : MetaEntry))].map Prod.fst).Nodup ∧
      alookup "a" [("a", (⟨none, none, some (1, 2)⟩ : MetaEntry))] =
        some ⟨none, none, some (1, 2)⟩) ∧
    alookup "a"
        (dupdate [("a", (⟨none, none, none⟩ : MetaEntry))]
          [("a", ⟨none, none, some (1, 2)⟩)]) =
      some ⟨none, none, some (1, 2)⟩ :=
  ⟨⟨by decide, by decide⟩,
    C5_metadata_sources.2.2.2.1 [("a", ⟨none, none, none⟩)]
      [("a", ⟨none, none, some (1, 2)⟩)] "a" ⟨none, none, some (1, 2)⟩
      (by decide) (by decide)⟩

/-- C6 counterexample: with the preload flag set and user images
"a.jpg" (unprocessed) and "b.jpg" (whose detected counterpart exists),
the run triggers and "b.jpg" is selected for reinference even though its
output counterpart exists — no per-image exclusion happens. -/
theorem C6_incremental_counterexample :
    detectedName "b.jpg" ∈ ["b_detected.jpg"] ∧
    "b.jpg" ∈ selected_images true [] ["a.jpg", "b.jpg"] ["b_detected.jpg"] := by
  exact ⟨by decide, by decide⟩

/-- C6 amended: the policy is all-or-nothing. In incremental mode
(preload flag set) nothing is run when every user image has its detected
counterpart; as soon as one user image lacks its counterpart, every
candidate image of both directories is (re)processed; on a first run
(flag unset) everything is processed. -/
theorem C6_incremental_policy :
    (∀ pre user out : List String,
      (∀ img ∈ user, detectedName img ∈ out) →
      selected_images true pre user out = []) ∧
    (∀ (pre user out : List String) (img : String),
      img ∈ user → detectedName img ∉ out →
      selected_images true pre user out = pre ++ user) ∧
    (∀ pre user out : List String,
      selected_images false pre user out = pre ++ user) := by
  refine ⟨?_, ?_, ?_⟩
  · intro pre user out hall
    have h : should_run_inference true user out = false := by
      simp only [should_run_inference]
      rw [if_neg (by simp)]
      simp only [List.any_eq_false]
      intro img hm
      simp [hall img hm]
    simp [selected_images, h]
  · intro pre user out img hmem hnot
    have h : should_run_inference true user out = true := by
      simp only [should_run_inference]
      rw [if_neg (by simp)]
      simp only [List.any_eq_true]
      exact ⟨img, hmem, by simp [hnot]⟩
    simp [selected_images, h]
  · intro pre user out
    simp [selected_images, should_run_inference]

/-- Witness for C6: a fully processed user directory triggers no
reinference. -/
theorem C6_incremental_policy_witness :
    (∀ img ∈ ["c.png"], detectedName img ∈ ["c_detected.png"]) ∧
    selected_images true ["p.jpg"] ["c.png"] ["c_detected.png"] = [] :=
  ⟨by decide,
    C6_incremental_policy.1 ["p.jpg"] ["c.png"] ["c_detected.png"]
      (by decide)⟩

end RoadDetect
